import Mathlib

/-!
# Verification of the LLM batch helper core

A shallow embedding of the `llm_batch_helper` package.  The configuration
record is translated from `src/llm_batch_helper/config.py`.  The batch
engine (input normalizer, cache store, per-item worker, batch scheduler)
is not present under `src/`; those components are modelled from the
specification, see the doc comments of the individual definitions.
-/

namespace LLMBatchHelper

/-- From `config.py` line 4: the fixed generic system instruction used as a
default when the caller supplies none. -/
def SYSTEM_INSTRUCTION : String := "You are a helpful AI assistant. "

/-- One message turn of a conversation: a role tag plus text content. -/
inductive Role
  | system
  | user
  | assistant
deriving DecidableEq, Repr

/-- A validated conversation turn. -/
structure Message where
  role : Role
  content : String
deriving DecidableEq, Repr

/-- Canonical content of one item: flat text or a multi-turn conversation. -/
inductive Content
  | flat (text : String)
  | conv (messages : List Message)
deriving DecidableEq, Repr

/-- Auxiliary keyword arguments handed to the verification callback,
modelled as an association list (Python passes a `Dict` via `**kwargs`). -/
abbrev CallbackArgs := List (String × String)

/-- The verification predicate receives
`(prompt_id, response_text, original_content, auxiliary_args)` and returns
accept/reject, mirroring the callback signature used by the package. -/
abbrev Verifier := String → String → Content → CallbackArgs → Bool

/-- The immutable per-batch model configuration, translated field by field
from `LLMConfig.__init__` in `src/llm_batch_helper/config.py`.
`temperature` is a Python float carrying no arithmetic in this code; it is
embedded as a rational number. -/
structure LLMConfig where
  model_name : String
  temperature : ℚ
  max_tokens : Option Nat
  system_instruction : String
  max_retries : Nat
  max_concurrent_requests : Nat
  verification_callback : Option Verifier
  verification_callback_args : CallbackArgs

/-- `LLMConfig.__init__` from `config.py`: stores every argument, except
that `system_instruction` is replaced by `SYSTEM_INSTRUCTION` whenever the
supplied value is falsy (Python `system_instruction or SYSTEM_INSTRUCTION`,
which substitutes on `None` and on the empty string alike), and
`verification_callback_args` defaults to the empty dict only on `None`. -/
def LLMConfig.init (model_name : String) (temperature : ℚ)
    (max_tokens : Option Nat) (system_instruction : Option String)
    (max_retries : Nat) (max_concurrent_requests : Nat)
    (verification_callback : Option Verifier)
    (verification_callback_args : Option CallbackArgs) : LLMConfig :=
  { model_name := model_name
    temperature := temperature
    max_tokens := max_tokens
    system_instruction :=
      match system_instruction with
      | none => SYSTEM_INSTRUCTION
      | some s => if s = "" then SYSTEM_INSTRUCTION else s
    max_retries := max_retries
    max_concurrent_requests := max_concurrent_requests
    verification_callback := verification_callback
    verification_callback_args :=
      match verification_callback_args with
      | none => []
      | some a => a }

/-- Modelled from the spec (§3, §4.2; the cache module is not under
`src/`): the cache key is a deterministic fingerprint of
`(item_id, content, model name, temperature, max output length)`.  The
digest is embedded as the fingerprinted tuple itself, which is faithful to
the contract the spec imposes on the digest: purity, determinism, and
distinct keys whenever any fingerprinted field changes. -/
structure CacheKey where
  item_id : String
  content : Content
  model_name : String
  temperature : ℚ
  max_tokens : Option Nat
deriving DecidableEq

/-- Modelled from the spec (§4.2): derive the cache key of an item from its
id, its content, and the configuration fields that affect output. -/
def computeCacheKey (item_id : String) (content : Content)
    (cfg : LLMConfig) : CacheKey :=
  ⟨item_id, content, cfg.model_name, cfg.temperature, cfg.max_tokens⟩

/-- One outcome per item (spec §3, §6): success carries the response text
and the freshness marker `from_cache`; failure carries an error string.
The two shapes are the only ones, and are mutually exclusive by
construction. -/
inductive ItemResult
  | success (response_text : String) (from_cache : Bool)
  | failure (error : String)
deriving DecidableEq, Repr

/-- Whether a result is a success (has `response_text` and `from_cache`). -/
def ItemResult.isSuccess : ItemResult → Bool
  | .success _ _ => true
  | .failure _ => false

/-- Whether a result is a failure (has an `error` string). -/
def ItemResult.isFailure : ItemResult → Bool
  | .success _ _ => false
  | .failure _ => true

/-- The failure message produced once the retry budget is exhausted,
carrying the last error or rejection reason (spec §4.5). -/
def exhaustedMsg (lastErr : String) : String :=
  "All retry attempts exhausted. Last error: " ++ lastErr

/-- The Provider Invoker interface (spec §4.3): one call per attempt index,
returning either response text or a classified failure, modelled as an
injected capability. -/
abbrev Invoker := Nat → Except String String

/-- Modelled from the spec (§4.4): acceptance of a produced response.  No
predicate configured means every non-error response is accepted
unconditionally; otherwise the caller-supplied predicate decides. -/
def acceptsResponse (cfg : LLMConfig) (item_id : String) (content : Content)
    (resp : String) : Bool :=
  match cfg.verification_callback with
  | none => true
  | some p => p item_id resp content cfg.verification_callback_args

/-- The outcome of one Per-Item Worker run, instrumented with the number of
Provider Invoker calls made and the cache write performed (if any), so that
the observable interactions of the worker are part of the model. -/
structure WorkerResult where
  result : ItemResult
  invocations : Nat
  cacheWrite : Option (CacheKey × String)
deriving DecidableEq

/-- Modelled from the spec (§4.5, the worker module is not under `src/`):
the INVOKE/VERIFY/RETRY loop.  `fuel` is the remaining retry budget,
`made` the number of invocations already performed, `lastErr` the most
recent error or rejection reason.  Each provider failure or verification
rejection consumes one unit of budget; an accepted response is cached and
returned as a freshly generated success; an empty budget yields the
EXHAUSTED failure carrying the last error. -/
def invokeLoop (cfg : LLMConfig) (item_id : String) (content : Content)
    (invoker : Invoker) : Nat → Nat → String → WorkerResult
  | 0, made, lastErr => ⟨.failure (exhaustedMsg lastErr), made, none⟩
  | fuel + 1, made, _ =>
      match invoker made with
      | .error e => invokeLoop cfg item_id content invoker fuel (made + 1) e
      | .ok resp =>
          if acceptsResponse cfg item_id content resp then
            ⟨.success resp false, made + 1,
              some (computeCacheKey item_id content cfg, resp)⟩
          else
            invokeLoop cfg item_id content invoker fuel (made + 1)
              "Response verification failed"

/-- Modelled from the spec (§4.5): the Per-Item Worker.  When `force` is
set the cache check is skipped entirely.  Otherwise, on a cache hit with no
verification predicate the cached text is returned as-is (freshness =
cached, no provider call); with a predicate, the cached value is re-verified
and returned only if it passes, else the worker proceeds to INVOKE as if no
cache existed. -/
def runWorker (cfg : LLMConfig) (force : Bool) (cached : Option String)
    (item_id : String) (content : Content) (invoker : Invoker) :
    WorkerResult :=
  if force then
    invokeLoop cfg item_id content invoker cfg.max_retries 0
      "No attempts were made"
  else
    match cached with
    | none =>
        invokeLoop cfg item_id content invoker cfg.max_retries 0
          "No attempts were made"
    | some v =>
        match cfg.verification_callback with
        | none => ⟨.success v true, 0, none⟩
        | some p =>
            if p item_id v content cfg.verification_callback_args then
              ⟨.success v true, 0, none⟩
            else
              invokeLoop cfg item_id content invoker cfg.max_retries 0
                "No attempts were made"

/-- Modelled from the spec (§4.6): the Batch Scheduler runs one worker per
item and aggregates every item's result into one mapping keyed by
`item_id`, order-preserving relative to the input.  Concurrency is an
admission-gate bound with no cross-item interaction, so the aggregate is
the per-item results in input order; `cache` is the shared Cache Store
read interface and `invoker` the per-item Provider Invoker. -/
def runBatch (cfg : LLMConfig) (force : Bool)
    (cache : CacheKey → Option String)
    (invoker : String → Invoker)
    (items : List (String × Content)) : List (String × ItemResult) :=
  items.map (fun it =>
    (it.1,
      (runWorker cfg force (cache (computeCacheKey it.1 it.2 cfg)) it.1 it.2
        (invoker it.1)).result))

/-- Modelled from the spec (§4.1, the input-handler module is not under
`src/`): one flat-prompt input element — a bare text value, a
`(custom_id, text)` pair, or a record whose required `id` and `text`
fields may be absent (a dynamic record missing a field). -/
inductive PromptInput
  | bare (text : String)
  | pair (custom_id : String) (text : String)
  | record (id : Option String) (text : Option String)
deriving DecidableEq, Repr

/-- Modelled from the spec (§4.1): for a bare text value the `item_id` is
derived deterministically from the content (a stable hash), so repeated
identical inputs in the same batch collide predictably.  The digest is
embedded as a deterministic injective encoding of the content. -/
def derivedId (text : String) : String := "prompt_" ++ text

/-- Modelled from the spec (§4.1): one raw conversation turn whose `role`
and `content` fields may each be absent (an element that is not a
role/content pair). -/
structure RawTurn where
  role : Option String
  content : Option String
deriving DecidableEq, Repr

/-- Modelled from the spec (§4.1): one conversation input element — a
`(custom_id, turns)` pair or a record whose required `id` and `messages`
fields may be absent. -/
inductive ConvInput
  | pair (custom_id : String) (turns : List RawTurn)
  | record (id : Option String) (turns : Option (List RawTurn))
deriving DecidableEq, Repr

/-- Modelled from the spec (§4.1): validate one conversation turn.  The
turn must carry both a role and a content field, and the role must be one
of the fixed small set system/user/assistant. -/
def resolveTurn : RawTurn → Except String Message
  | ⟨some r, some c⟩ =>
      if r = "system" then .ok ⟨.system, c⟩
      else if r = "user" then .ok ⟨.user, c⟩
      else if r = "assistant" then .ok ⟨.assistant, c⟩
      else .error ("Invalid role in conversation turn: " ++ r)
  | _ => .error "Conversation element is not a sequence of role/content pairs"

/-- Resolve each element in order, propagating the first validation
error (the normalizer resolves input shapes once, before any worker runs). -/
def resolveAll (f : α → Except String β) : List α → Except String (List β)
  | [] => .ok []
  | a :: l =>
      match f a with
      | .error e => .error e
      | .ok b =>
          match resolveAll f l with
          | .error e => .error e
          | .ok bs => .ok (b :: bs)

/-- Modelled from the spec (§4.1): resolve one flat-prompt element into a
canonical `(item_id, content)` pair; a record missing a required field is a
validation error. -/
def resolvePromptInput : PromptInput → Except String (String × Content)
  | .bare t => .ok (derivedId t, .flat t)
  | .pair i t => .ok (i, .flat t)
  | .record (some i) (some t) => .ok (i, .flat t)
  | .record _ _ => .error "Prompt record is missing a required field"

/-- Modelled from the spec (§4.1): resolve one conversation element into a
canonical `(item_id, content)` pair, validating every turn; a record
missing a required field is a validation error. -/
def resolveConvInput : ConvInput → Except String (String × Content)
  | .pair i ts =>
      match resolveAll resolveTurn ts with
      | .error e => .error e
      | .ok ms => .ok (i, .conv ms)
  | .record (some i) (some ts) =>
      match resolveAll resolveTurn ts with
      | .error e => .error e
      | .ok ms => .ok (i, .conv ms)
  | .record _ _ => .error "Message record is missing a required field"

/-- Modelled from the spec (§4.1): uniqueness of `item_id` is enforced on
the canonical sequence; a repeated id within the batch is a validation
error. -/
def checkUniqueIds (items : List (String × Content)) :
    Except String (List (String × Content)) :=
  if (items.map Prod.fst).Nodup then .ok items
  else .error "Duplicate item_id in batch"

/-- Modelled from the spec (§6): exactly one of flat prompts, conversations
or an input directory must be supplied; supplying more than one, or none,
is a validation error raised before any canonicalization or provider call.
An input directory is embedded as its loaded `(file stem, file text)`
pairs, file loading itself being outside core scope. -/
def selectInput (prompts : Option (List PromptInput))
    (messages : Option (List ConvInput))
    (input_dir : Option (List (String × String))) :
    Except String (List (String × Content)) :=
  match prompts, messages, input_dir with
  | some ps, none, none => resolveAll resolvePromptInput ps
  | none, some ms, none => resolveAll resolveConvInput ms
  | none, none, some files => .ok (files.map (fun f => (f.1, .flat f.2)))
  | none, none, none =>
      .error "Must provide exactly one of prompts, messages, or input_dir"
  | _, _, _ =>
      .error "Provide only one of prompts, messages, or input_dir"

/-- Modelled from the spec (§6, §7): the batch invocation.  Validation
(input exclusivity, shape resolution, id uniqueness) happens synchronously
first and aborts the whole invocation with an error, producing no per-item
results; only a validated batch reaches the scheduler, whose per-item
failures are contained in the result mapping. -/
def process_prompts_batch (cfg : LLMConfig) (force : Bool)
    (cache : CacheKey → Option String) (invoker : String → Invoker)
    (prompts : Option (List PromptInput))
    (messages : Option (List ConvInput))
    (input_dir : Option (List (String × String))) :
    Except String (List (String × ItemResult)) :=
  match selectInput prompts messages input_dir with
  | .error e => .error e
  | .ok raw =>
      match checkUniqueIds raw with
      | .error e => .error e
      | .ok items => .ok (runBatch cfg force cache invoker items)

/-! ## Concrete instances used by witnesses -/

/-- A concrete configuration with no verification predicate and a retry
budget of 3, mirroring `config_no_verification` in `examples/example.py`. -/
def cfgNoVerifier : LLMConfig :=
  LLMConfig.init "gpt-4o-mini" (7/10) (some 100) none 3 5 none none

/-- A concrete verification predicate accepting exactly the response
"good". -/
def goodOnly : Verifier := fun _ resp _ _ => resp == "good"

/-- A concrete configuration carrying the `goodOnly` predicate. -/
def cfgVerifier : LLMConfig :=
  LLMConfig.init "gpt-4o-mini" (7/10) (some 100) none 3 5 (some goodOnly) none

/-! ## Helper lemmas -/

/-- When every invocation fails, the retry loop spends its whole budget and
reports the final error. -/
theorem invokeLoop_all_fail (cfg : LLMConfig) (item_id : String)
    (content : Content) (invoker : Invoker) (errs : Nat → String)
    (hfail : ∀ k, invoker k = .error (errs k)) :
    ∀ fuel made lastErr,
      invokeLoop cfg item_id content invoker (fuel + 1) made lastErr
        = ⟨.failure (exhaustedMsg (errs (made + fuel))), made + fuel + 1, none⟩ := by
  intro fuel
  induction fuel with
  | zero =>
      intro made lastErr
      simp [invokeLoop, hfail made]
  | succ n ih =>
      intro made lastErr
      have step1 : invokeLoop cfg item_id content invoker (n + 1 + 1) made
            lastErr
          = invokeLoop cfg item_id content invoker (n + 1) (made + 1)
              (errs made) := by
        rw [invokeLoop, hfail made]
      rw [step1, ih (made + 1) (errs made)]
      have harith : made + 1 + n = made + (n + 1) := by omega
      rw [harith]

/-- When the first invocation succeeds and the response is accepted, the
loop stops after exactly one invocation, caching the response. -/
theorem invokeLoop_first_ok (cfg : LLMConfig) (item_id : String)
    (content : Content) (invoker : Invoker) (r : String) (fuel : Nat)
    (lastErr : String) (hinv : invoker 0 = .ok r)
    (hacc : acceptsResponse cfg item_id content r = true) :
    invokeLoop cfg item_id content invoker (fuel + 1) 0 lastErr
      = ⟨.success r false, 1,
          some (computeCacheKey item_id content cfg, r)⟩ := by
  simp [invokeLoop, hinv, hacc]

/-- With no cached value, the worker runs the retry loop on the full
budget; when every invocation fails it exhausts the budget. -/
theorem runWorker_none_all_fail (cfg : LLMConfig) (force : Bool)
    (item_id : String) (content : Content) (invoker : Invoker)
    (errs : Nat → String) (hpos : 0 < cfg.max_retries)
    (hfail : ∀ k, invoker k = .error (errs k)) :
    runWorker cfg force none item_id content invoker
      = ⟨.failure (exhaustedMsg (errs (cfg.max_retries - 1))),
          cfg.max_retries, none⟩ := by
  obtain ⟨n, hn⟩ : ∃ n, cfg.max_retries = n + 1 :=
    ⟨cfg.max_retries - 1, by omega⟩
  have key := invokeLoop_all_fail cfg item_id content invoker errs hfail n 0
    "No attempts were made"
  cases force <;> simp [runWorker, hn, key]

/-- With no cached value, a first invocation that succeeds and is accepted
yields a freshly generated success after exactly one invocation. -/
theorem runWorker_none_first_ok (cfg : LLMConfig) (force : Bool)
    (item_id : String) (content : Content) (invoker : Invoker) (r : String)
    (hpos : 0 < cfg.max_retries) (hinv : invoker 0 = .ok r)
    (hacc : acceptsResponse cfg item_id content r = true) :
    runWorker cfg force none item_id content invoker
      = ⟨.success r false, 1,
          some (computeCacheKey item_id content cfg, r)⟩ := by
  obtain ⟨n, hn⟩ : ∃ n, cfg.max_retries = n + 1 :=
    ⟨cfg.max_retries - 1, by omega⟩
  have key := invokeLoop_first_ok cfg item_id content invoker r n
    "No attempts were made" hinv hacc
  cases force <;> simp [runWorker, hn, key]

/-! ## Claims -/

/-- C1: for an item whose cache entry already exists, with no verification
predicate configured and `force` false, the worker returns a success result
with `from_cache = true` carrying the cached response text, makes zero
Provider Invoker calls, and writes nothing to the cache. -/
theorem cache_hit_no_verifier (cfg : LLMConfig) (v item_id : String)
    (content : Content) (invoker : Invoker)
    (h : cfg.verification_callback = none) :
    runWorker cfg false (some v) item_id content invoker
      = ⟨.success v true, 0, none⟩ := by
  simp [runWorker, h]

/-- Witness for C1 at a concrete configuration, cached text and failing
invoker. -/
theorem cache_hit_no_verifier_witness :
    runWorker cfgNoVerifier false (some "cached text") "q1" (.flat "prompt")
        (fun _ => .error "network down")
      = ⟨.success "cached text" true, 0, none⟩ :=
  cache_hit_no_verifier cfgNoVerifier "cached text" "q1" (.flat "prompt")
    (fun _ => .error "network down") rfl

/-- C4: computing the cache key twice on the same inputs yields identical
output, while changing the temperature alone, the model name alone, the max
output length alone, or the content alone yields a different key. -/
theorem cache_key_deterministic_and_sensitive :
    (∀ item_id content cfg,
      computeCacheKey item_id content cfg
        = computeCacheKey item_id content cfg) ∧
    (∀ item_id content cfg t, cfg.temperature ≠ t →
      computeCacheKey item_id content cfg
        ≠ computeCacheKey item_id content { cfg with temperature := t }) ∧
    (∀ item_id content cfg m, cfg.model_name ≠ m →
      computeCacheKey item_id content cfg
        ≠ computeCacheKey item_id content { cfg with model_name := m }) ∧
    (∀ item_id content cfg mt, cfg.max_tokens ≠ mt →
      computeCacheKey item_id content cfg
        ≠ computeCacheKey item_id content { cfg with max_tokens := mt }) ∧
    (∀ item_id c1 c2 cfg, c1 ≠ c2 →
      computeCacheKey item_id c1 cfg ≠ computeCacheKey item_id c2 cfg) :=
  ⟨fun _ _ _ => rfl,
    fun _ _ _ _ hne heq => hne (congrArg CacheKey.temperature heq),
    fun _ _ _ _ hne heq => hne (congrArg CacheKey.model_name heq),
    fun _ _ _ _ hne heq => hne (congrArg CacheKey.max_tokens heq),
    fun _ _ _ _ hne heq => hne (congrArg CacheKey.content heq)⟩

/-- Witness for C4 at a concrete item and configuration, one changed field
at a time. -/
theorem cache_key_witness :
    computeCacheKey "i" (.flat "c") cfgNoVerifier
        ≠ computeCacheKey "i" (.flat "c")
            { cfgNoVerifier with temperature := 1 } ∧
    computeCacheKey "i" (.flat "c") cfgNoVerifier
        ≠ computeCacheKey "i" (.flat "c")
            { cfgNoVerifier with model_name := "gpt-4o" } ∧
    computeCacheKey "i" (.flat "c") cfgNoVerifier
        ≠ computeCacheKey "i" (.flat "c")
            { cfgNoVerifier with max_tokens := none } ∧
    computeCacheKey "i" (.flat "c") cfgNoVerifier
        ≠ computeCacheKey "i" (.flat "d") cfgNoVerifier :=
  ⟨cache_key_deterministic_and_sensitive.2.1 "i" (.flat "c") cfgNoVerifier 1
      (by norm_num [cfgNoVerifier, LLMConfig.init]),
    cache_key_deterministic_and_sensitive.2.2.1 "i" (.flat "c") cfgNoVerifier
      "gpt-4o" (by decide),
    cache_key_deterministic_and_sensitive.2.2.2.1 "i" (.flat "c")
      cfgNoVerifier none (by decide),
    cache_key_deterministic_and_sensitive.2.2.2.2 "i" (.flat "c") (.flat "d")
      cfgNoVerifier (by decide)⟩

/-- C9: a configuration constructed without a system instruction gets the
fixed generic default `SYSTEM_INSTRUCTION`. -/
theorem default_system_instruction (model_name : String) (t : ℚ)
    (mt : Option Nat) (mr mcr : Nat) (vc : Option Verifier)
    (vca : Option CallbackArgs) :
    (LLMConfig.init model_name t mt none mr mcr vc vca).system_instruction
      = SYSTEM_INSTRUCTION := rfl

/-- C10: constructing a configuration with the empty string as system
instruction (present but falsy) silently substitutes the default, and
consequently every constructed configuration has a non-empty system
instruction. -/
theorem empty_system_instruction_replaced :
    (∀ model_name t mt mr mcr vc vca,
      (LLMConfig.init model_name t mt (some "") mr mcr vc
          vca).system_instruction = SYSTEM_INSTRUCTION) ∧
    (∀ model_name t mt si mr mcr vc vca,
      (LLMConfig.init model_name t mt si mr mcr vc
          vca).system_instruction ≠ "") := by
  constructor
  · intro model_name t mt mr mcr vc vca
    rfl
  · intro model_name t mt si mr mcr vc vca
    cases si with
    | none => simp [LLMConfig.init, SYSTEM_INSTRUCTION]
    | some s =>
        by_cases h : s = ""
        · simp [LLMConfig.init, h, SYSTEM_INSTRUCTION]
        · simp [LLMConfig.init, h]

/-- C2: with `max_retries = n` and a Provider Invoker that fails on every
call, the worker makes exactly n invocation attempts and then returns a
failure result carrying the last error inside the exhaustion message. -/
theorem retry_exhaustion (cfg : LLMConfig) (item_id : String)
    (content : Content) (force : Bool) (invoker : Invoker)
    (errs : Nat → String) (hpos : 0 < cfg.max_retries)
    (hfail : ∀ k, invoker k = .error (errs k)) :
    runWorker cfg force none item_id content invoker
      = ⟨.failure (exhaustedMsg (errs (cfg.max_retries - 1))),
          cfg.max_retries, none⟩ :=
  runWorker_none_all_fail cfg force item_id content invoker errs hpos hfail

/-- Witness for C2: with `max_retries = 3` and an always-failing invoker,
exactly 3 invocations occur and the failure cites exhaustion with the last
error. -/
theorem retry_exhaustion_witness :
    0 < cfgNoVerifier.max_retries ∧
    runWorker cfgNoVerifier false none "q1" (.flat "prompt")
        (fun _ => .error "rate limited")
      = ⟨.failure (exhaustedMsg "rate limited"), 3, none⟩ :=
  ⟨by decide,
    retry_exhaustion cfgNoVerifier "q1" (.flat "prompt") false
      (fun _ => .error "rate limited") (fun _ => "rate limited") (by decide)
      (fun _ => rfl)⟩

/-- C3: for an item with an existing cache entry, when the configured
predicate rejects the cached value the worker invokes the Provider Invoker
afresh and applies the predicate to the new response; the accepted fresh
response is returned as freshly generated (not the stale cached text). -/
theorem cache_reverification (cfg : LLMConfig) (p : Verifier)
    (v r item_id : String) (content : Content) (invoker : Invoker)
    (hcb : cfg.verification_callback = some p)
    (hrej : p item_id v content cfg.verification_callback_args = false)
    (hpos : 0 < cfg.max_retries) (hinv : invoker 0 = .ok r)
    (hacc : p item_id r content cfg.verification_callback_args = true) :
    runWorker cfg false (some v) item_id content invoker
      = ⟨.success r false, 1,
          some (computeCacheKey item_id content cfg, r)⟩ := by
  obtain ⟨n, hn⟩ : ∃ n, cfg.max_retries = n + 1 :=
    ⟨cfg.max_retries - 1, by omega⟩
  have hacc2 : acceptsResponse cfg item_id content r = true := by
    simp [acceptsResponse, hcb, hacc]
  have key := invokeLoop_first_ok cfg item_id content invoker r n
    "No attempts were made" hinv hacc2
  simp [runWorker, hcb, hrej, hn, key]

/-- Witness for C3: a cached value rejected by the predicate triggers a
fresh invocation whose accepted response is returned with
`from_cache = false`. -/
theorem cache_reverification_witness :
    cfgVerifier.verification_callback = some goodOnly ∧
    goodOnly "q1" "stale" (.flat "prompt")
        cfgVerifier.verification_callback_args = false ∧
    goodOnly "q1" "good" (.flat "prompt")
        cfgVerifier.verification_callback_args = true ∧
    runWorker cfgVerifier false (some "stale") "q1" (.flat "prompt")
        (fun _ => .ok "good")
      = ⟨.success "good" false, 1,
          some (computeCacheKey "q1" (.flat "prompt") cfgVerifier, "good")⟩ :=
  ⟨rfl, by decide, by decide,
    cache_reverification cfgVerifier goodOnly "stale" "good" "q1"
      (.flat "prompt") (fun _ => .ok "good") rfl (by decide) (by decide) rfl
      (by decide)⟩

/-- C7: with `force = true` the worker's behavior is independent of the
cached value (cache reads are bypassed), it invokes the Provider Invoker,
and on a successful verified response it writes the cache entry for the
item's key (cache writes are not bypassed). -/
theorem force_bypass (cfg : LLMConfig) (item_id : String) (content : Content)
    (invoker : Invoker) (v r : String) (hpos : 0 < cfg.max_retries)
    (hinv : invoker 0 = .ok r)
    (hacc : acceptsResponse cfg item_id content r = true) :
    (∀ c1 c2 : Option String,
      runWorker cfg true c1 item_id content invoker
        = runWorker cfg true c2 item_id content invoker) ∧
    runWorker cfg true (some v) item_id content invoker
      = ⟨.success r false, 1,
          some (computeCacheKey item_id content cfg, r)⟩ := by
  constructor
  · intro c1 c2
    rfl
  · obtain ⟨n, hn⟩ : ∃ n, cfg.max_retries = n + 1 :=
      ⟨cfg.max_retries - 1, by omega⟩
    have key := invokeLoop_first_ok cfg item_id content invoker r n
      "No attempts were made" hinv hacc
    simp [runWorker, hn, key]

/-- Witness for C7: with an existing cache entry and `force = true`, the
provider is invoked and the fresh response is returned and written to the
cache. -/
theorem force_bypass_witness :
    (∀ c1 c2 : Option String,
      runWorker cfgNoVerifier true c1 "q1" (.flat "prompt")
          (fun _ => .ok "fresh")
        = runWorker cfgNoVerifier true c2 "q1" (.flat "prompt")
            (fun _ => .ok "fresh")) ∧
    runWorker cfgNoVerifier true (some "cached text") "q1" (.flat "prompt")
        (fun _ => .ok "fresh")
      = ⟨.success "fresh" false, 1,
          some (computeCacheKey "q1" (.flat "prompt") cfgNoVerifier,
            "fresh")⟩ :=
  force_bypass cfgNoVerifier "q1" (.flat "prompt") (fun _ => .ok "fresh")
    "cached text" "fresh" (by decide) rfl (by decide)

/-- Counting helper: in a list whose image under `f` has no duplicates and
contains `K`, exactly one element maps to `K`. -/
theorem countP_eq_one_of_map_nodup {α β : Type} [DecidableEq β]
    (l : List α) (f : α → β) (K : β) (hnodup : (l.map f).Nodup)
    (hK : K ∈ l.map f) :
    l.countP (fun a => decide (f a = K)) = 1 := by
  induction l with
  | nil => simp at hK
  | cons a l ih =>
      simp only [List.map_cons, List.nodup_cons, List.mem_cons] at hnodup hK
      rcases hK with h | h
      · have hzero : l.countP (fun b => decide (f b = K)) = 0 := by
          rw [List.countP_eq_zero]
          intro b hb
          simp only [decide_eq_true_eq]
          intro hfb
          have hmem : f b ∈ List.map f l := List.mem_map_of_mem f hb
          rw [hfb, h] at hmem
          exact hnodup.1 hmem
        rw [List.countP_cons, hzero]
        simp [h.symm]
      · have hne : f a ≠ K := fun hfa => hnodup.1 (hfa ▸ h)
        rw [List.countP_cons, ih hnodup.2 h]
        simp [hne]

/-- Counting helper: counting the complement of a predicate counts the
remaining elements. -/
theorem countP_not_eq {α : Type} (l : List α) (p : α → Bool) :
    l.countP (fun a => !(p a)) = l.length - l.countP p := by
  induction l with
  | nil => rfl
  | cons a l ih =>
      have hle := List.countP_le_length (p := p) (l := l)
      rw [List.countP_cons, List.countP_cons, ih, List.length_cons]
      by_cases h : p a = true
      · simp [h]
      · simp [h]
        omega

/-- C5: in a batch where item K's invoker always fails and every other
item's invoker succeeds at once, the result mapping has one entry per
item, exactly one failure, all the other items succeed, and the sole
failure is item K. -/
theorem batch_isolation (cfg : LLMConfig) (K eK : String)
    (items : List (String × Content)) (resp : String → String)
    (invoker : String → Invoker)
    (hnodup : (items.map Prod.fst).Nodup)
    (hK : K ∈ items.map Prod.fst)
    (hnover : cfg.verification_callback = none)
    (hpos : 0 < cfg.max_retries)
    (hKfail : ∀ k, invoker K k = .error eK)
    (hok : ∀ item_id, item_id ≠ K → invoker item_id 0 = .ok (resp item_id)) :
    (runBatch cfg false (fun _ => none) invoker items).length
        = items.length ∧
    (runBatch cfg false (fun _ => none) invoker items).countP
        (fun it => it.2.isFailure) = 1 ∧
    (runBatch cfg false (fun _ => none) invoker items).countP
        (fun it => it.2.isSuccess) = items.length - 1 ∧
    ∀ it ∈ runBatch cfg false (fun _ => none) invoker items,
      it.2.isFailure = true → it.1 = K := by
  have hmap : runBatch cfg false (fun _ => none) invoker items
      = items.map (fun it =>
          (it.1, if it.1 = K
            then ItemResult.failure (exhaustedMsg eK)
            else ItemResult.success (resp it.1) false)) := by
    unfold runBatch
    apply List.map_congr_left
    intro it _
    by_cases h : it.1 = K
    · have hw := runWorker_none_all_fail cfg false it.1 it.2 (invoker it.1)
        (fun _ => eK) hpos (fun k => by rw [h]; exact hKfail k)
      rw [hw, if_pos h]
    · have hw := runWorker_none_first_ok cfg false it.1 it.2 (invoker it.1)
        (resp it.1) hpos (hok it.1 h) (by simp [acceptsResponse, hnover])
      rw [hw, if_neg h]
  rw [hmap]
  have hcount1 := countP_eq_one_of_map_nodup items Prod.fst K hnodup hK
  refine ⟨by simp, ?_, ?_, ?_⟩
  · rw [List.countP_map]
    have hfun : ((fun it : String × ItemResult => it.2.isFailure) ∘
        (fun it : String × Content => (it.1, if it.1 = K
          then ItemResult.failure (exhaustedMsg eK)
          else ItemResult.success (resp it.1) false)))
        = fun it => decide (it.1 = K) := by
      funext it
      by_cases h : it.1 = K <;> simp [h, ItemResult.isFailure]
    rw [hfun]
    exact hcount1
  · rw [List.countP_map]
    have hfun : ((fun it : String × ItemResult => it.2.isSuccess) ∘
        (fun it : String × Content => (it.1, if it.1 = K
          then ItemResult.failure (exhaustedMsg eK)
          else ItemResult.success (resp it.1) false)))
        = fun it => !(decide (it.1 = K)) := by
      funext it
      by_cases h : it.1 = K <;> simp [h, ItemResult.isSuccess]
    rw [hfun, countP_not_eq, hcount1]
  · intro it hit hfail
    obtain ⟨x, hx, hxeq⟩ := List.mem_map.mp hit
    by_cases h : x.1 = K
    · rw [← hxeq]
      exact h
    · rw [← hxeq] at hfail
      simp [h, ItemResult.isFailure] at hfail

/-- A concrete three-item batch used by the C5 witness. -/
def itemsABC : List (String × Content) :=
  [("a", .flat "p"), ("b", .flat "q"), ("c", .flat "r")]

/-- A concrete per-item invoker that always fails for item "b" and succeeds
immediately for every other item. -/
def invokerBFails : String → Invoker :=
  fun item_id _ =>
    if item_id = "b" then .error "boom" else .ok ("R" ++ item_id)

/-- Witness for C5 on a concrete three-item batch where item "b" always
fails. -/
theorem batch_isolation_witness :
    (runBatch cfgNoVerifier false (fun _ => none) invokerBFails
        itemsABC).length = itemsABC.length ∧
    (runBatch cfgNoVerifier false (fun _ => none) invokerBFails
        itemsABC).countP (fun it => it.2.isFailure) = 1 ∧
    (runBatch cfgNoVerifier false (fun _ => none) invokerBFails
        itemsABC).countP (fun it => it.2.isSuccess)
      = itemsABC.length - 1 ∧
    ∀ it ∈ runBatch cfgNoVerifier false (fun _ => none) invokerBFails
        itemsABC, it.2.isFailure = true → it.1 = "b" :=
  batch_isolation cfgNoVerifier "b" "boom" itemsABC
    (fun item_id => "R" ++ item_id) invokerBFails (by decide) (by decide)
    rfl (by decide) (fun _ => rfl)
    (fun item_id h => by simp [invokerBFails, h])

/-- Error propagation helper: if any element fails to resolve, the whole
resolution fails. -/
theorem resolveAll_error_of_mem {α β : Type} (f : α → Except String β)
    (l : List α) (a : α) (ha : a ∈ l) (e : String) (he : f a = .error e) :
    ∃ e2, resolveAll f l = .error e2 := by
  induction l with
  | nil => simp at ha
  | cons b l ih =>
      rcases List.mem_cons.mp ha with h | h
      · subst h
        exact ⟨e, by rw [resolveAll, he]⟩
      · cases hfb : f b with
        | error e3 => exact ⟨e3, by rw [resolveAll, hfb]⟩
        | ok v =>
            obtain ⟨e2, h2⟩ := ih h
            exact ⟨e2, by rw [resolveAll, hfb, h2]⟩

/-- C6: each class of invalid batch input — both flat prompts and
conversations supplied, none of the three input sources supplied, a
duplicate `item_id`, a record missing a required field, an invalid role in
a conversation turn — makes the invocation abort with a validation error
producing no per-item results; moreover an erroring invocation is
independent of the Provider Invoker, so no provider call can have
influenced it. -/
theorem validation_aborts_batch :
    (∀ cfg force cache invoker ps ms input_dir, ∃ e,
      process_prompts_batch cfg force cache invoker (some ps) (some ms)
        input_dir = .error e) ∧
    (∀ cfg force cache invoker, ∃ e,
      process_prompts_batch cfg force cache invoker none none none
        = .error e) ∧
    (∀ cfg force cache invoker ps items,
      resolveAll resolvePromptInput ps = .ok items →
      ¬ (items.map Prod.fst).Nodup → ∃ e,
      process_prompts_batch cfg force cache invoker (some ps) none none
        = .error e) ∧
    (∀ cfg force cache invoker ps oid ot,
      PromptInput.record oid ot ∈ ps → (oid = none ∨ ot = none) → ∃ e,
      process_prompts_batch cfg force cache invoker (some ps) none none
        = .error e) ∧
    (∀ cfg force cache invoker ms i ts rl ct,
      (ConvInput.pair i ts ∈ ms ∨ ConvInput.record (some i) (some ts) ∈ ms) →
      RawTurn.mk (some rl) ct ∈ ts →
      rl ≠ "system" → rl ≠ "user" → rl ≠ "assistant" → ∃ e,
      process_prompts_batch cfg force cache invoker none (some ms) none
        = .error e) ∧
    (∀ cfg force cache invoker1 invoker2 prompts messages input_dir e,
      process_prompts_batch cfg force cache invoker1 prompts messages
        input_dir = .error e →
      process_prompts_batch cfg force cache invoker2 prompts messages
        input_dir = .error e) := by
  refine ⟨?_, ?_, ?_, ?_, ?_, ?_⟩
  · intro cfg force cache invoker ps ms input_dir
    exact ⟨_, by cases input_dir <;> rfl⟩
  · intro cfg force cache invoker
    exact ⟨_, rfl⟩
  · intro cfg force cache invoker ps items hres hdup
    refine ⟨"Duplicate item_id in batch", ?_⟩
    simp [process_prompts_batch, selectInput, hres, checkUniqueIds, hdup]
  · intro cfg force cache invoker ps oid ot hmem hor
    have herr : resolvePromptInput (.record oid ot)
        = .error "Prompt record is missing a required field" := by
      rcases hor with h | h
      · rw [h]; cases ot <;> rfl
      · rw [h]; cases oid <;> rfl
    obtain ⟨e2, h2⟩ := resolveAll_error_of_mem resolvePromptInput ps _ hmem _
      herr
    exact ⟨e2, by simp [process_prompts_batch, selectInput, h2]⟩
  · intro cfg force cache invoker ms i ts rl ct hc hmem h1 h2 h3
    have hturn : ∃ e, resolveTurn ⟨some rl, ct⟩ = .error e := by
      cases ct with
      | none => exact ⟨_, rfl⟩
      | some c =>
          exact ⟨"Invalid role in conversation turn: " ++ rl,
            by simp [resolveTurn, h1, h2, h3]⟩
    obtain ⟨e0, he0⟩ := hturn
    obtain ⟨e1, he1⟩ := resolveAll_error_of_mem resolveTurn ts _ hmem _ he0
    have hconv : ∃ ci, ci ∈ ms ∧ resolveConvInput ci = .error e1 := by
      rcases hc with h | h
      · exact ⟨_, h, by simp [resolveConvInput, he1]⟩
      · exact ⟨_, h, by simp [resolveConvInput, he1]⟩
    obtain ⟨ci, hci, hcierr⟩ := hconv
    obtain ⟨e2, h2⟩ := resolveAll_error_of_mem resolveConvInput ms _ hci _
      hcierr
    exact ⟨e2, by simp [process_prompts_batch, selectInput, h2]⟩
  · intro cfg force cache invoker1 invoker2 prompts messages input_dir e h
    cases hsel : selectInput prompts messages input_dir with
    | error e1 =>
        simp [process_prompts_batch, hsel] at h ⊢
        exact h
    | ok raw =>
        cases hchk : checkUniqueIds raw with
        | error e1 =>
            simp [process_prompts_batch, hsel, hchk] at h ⊢
            exact h
        | ok items =>
            simp [process_prompts_batch, hsel, hchk] at h

/-- Witness for C6: each validation failure class exercised on concrete
inputs, plus invoker-independence of a concrete validation error. -/
theorem validation_aborts_batch_witness :
    (∃ e, process_prompts_batch cfgNoVerifier false (fun _ => none)
      (fun _ _ => .ok "hi") (some [.bare "p"]) (some []) none = .error e) ∧
    (∃ e, process_prompts_batch cfgNoVerifier false (fun _ => none)
      (fun _ _ => .ok "hi") none none none = .error e) ∧
    (∃ e, process_prompts_batch cfgNoVerifier false (fun _ => none)
      (fun _ _ => .ok "hi") (some [.pair "x" "a", .pair "x" "b"]) none none
        = .error e) ∧
    (∃ e, process_prompts_batch cfgNoVerifier false (fun _ => none)
      (fun _ _ => .ok "hi") (some [.record none (some "t")]) none none
        = .error e) ∧
    (∃ e, process_prompts_batch cfgNoVerifier false (fun _ => none)
      (fun _ _ => .ok "hi") none
        (some [.pair "c" [⟨some "banana", some "hello"⟩]]) none
        = .error e) ∧
    process_prompts_batch cfgNoVerifier false (fun _ => none)
      (fun _ _ => .error "never called") none none none
        = .error "Must provide exactly one of prompts, messages, or input_dir" :=
  ⟨validation_aborts_batch.1 cfgNoVerifier false (fun _ => none)
      (fun _ _ => .ok "hi") [.bare "p"] [] none,
    validation_aborts_batch.2.1 cfgNoVerifier false (fun _ => none)
      (fun _ _ => .ok "hi"),
    validation_aborts_batch.2.2.1 cfgNoVerifier false (fun _ => none)
      (fun _ _ => .ok "hi") [.pair "x" "a", .pair "x" "b"]
      [("x", .flat "a"), ("x", .flat "b")] rfl (by decide),
    validation_aborts_batch.2.2.2.1 cfgNoVerifier false (fun _ => none)
      (fun _ _ => .ok "hi") [.record none (some "t")] none (some "t")
      (by decide) (Or.inl rfl),
    validation_aborts_batch.2.2.2.2.1 cfgNoVerifier false (fun _ => none)
      (fun _ _ => .ok "hi") [.pair "c" [⟨some "banana", some "hello"⟩]] "c"
      [⟨some "banana", some "hello"⟩] "banana" (some "hello")
      (Or.inl (by decide)) (by decide) (by decide) (by decide) (by decide),
    validation_aborts_batch.2.2.2.2.2 cfgNoVerifier false (fun _ => none)
      (fun _ _ => .ok "unused") (fun _ _ => .error "never called") none none
      none "Must provide exactly one of prompts, messages, or input_dir"
      rfl⟩

/-- C8: a batch invocation that passes validation returns exactly one
result per canonical input item, keyed and ordered as the input, and every
result is exclusively either a success (response text and freshness
marker, no error) or a failure (error string) — never both, never
neither. -/
theorem result_mapping_shape (cfg : LLMConfig) (force : Bool)
    (cache : CacheKey → Option String) (invoker : String → Invoker)
    (prompts : Option (List PromptInput))
    (messages : Option (List ConvInput))
    (input_dir : Option (List (String × String)))
    (rs : List (String × ItemResult))
    (h : process_prompts_batch cfg force cache invoker prompts messages
      input_dir = .ok rs) :
    (∃ items, selectInput prompts messages input_dir = .ok items ∧
      (items.map Prod.fst).Nodup ∧
      rs.map Prod.fst = items.map Prod.fst ∧
      rs.length = items.length) ∧
    ∀ it ∈ rs, (it.2.isSuccess = true ∧ it.2.isFailure = false) ∨
      (it.2.isFailure = true ∧ it.2.isSuccess = false) := by
  refine ⟨?_, ?_⟩
  · cases hsel : selectInput prompts messages input_dir with
    | error e => simp [process_prompts_batch, hsel] at h
    | ok raw =>
        cases hchk : checkUniqueIds raw with
        | error e => simp [process_prompts_batch, hsel, hchk] at h
        | ok items =>
            have hck := hchk
            unfold checkUniqueIds at hck
            by_cases hnd : (raw.map Prod.fst).Nodup
            · rw [if_pos hnd] at hck
              injection hck with hck
              subst hck
              simp only [process_prompts_batch, hsel, hchk,
                Except.ok.injEq] at h
              refine ⟨raw, rfl, hnd, ?_, ?_⟩
              · rw [← h]
                simp [runBatch, List.map_map]
              · rw [← h]
                simp [runBatch]
            · rw [if_neg hnd] at hck
              exact absurd hck (by simp)
  · intro it _
    rcases it with ⟨item_id, r⟩
    cases r with
    | success t b => exact Or.inl ⟨rfl, rfl⟩
    | failure e => exact Or.inr ⟨rfl, rfl⟩

/-- Witness for C8 on a concrete one-item batch that succeeds. -/
theorem result_mapping_shape_witness :
    (∃ items, selectInput (some [PromptInput.bare "p"]) none none
        = .ok items ∧
      (items.map Prod.fst).Nodup ∧
      ([(derivedId "p", ItemResult.success "hi" false)].map Prod.fst
        = items.map Prod.fst) ∧
      [(derivedId "p", ItemResult.success "hi" false)].length
        = items.length) ∧
    ∀ it ∈ [(derivedId "p", ItemResult.success "hi" false)],
      (it.2.isSuccess = true ∧ it.2.isFailure = false) ∨
      (it.2.isFailure = true ∧ it.2.isSuccess = false) :=
  result_mapping_shape cfgNoVerifier false (fun _ => none)
    (fun _ _ => .ok "hi") (some [.bare "p"]) none none
    [(derivedId "p", .success "hi" false)] (by rfl)

end LLMBatchHelper
